import Mathlib

/-!
Verification development for the kijijiScrapper crawl pipeline.

Shallow embedding of the parts of the code base relevant to the stated
properties:

* a JSON value model `J` with Python-style access semantics
  (`pyGet`, `pyGetD`, `pyIndex`, iteration, truthiness), where
  `Except Unit` models a raised exception;
* the record formatter `KijijiDataFormatter`
  (src/scraper/kijijiDataFormatter.py) with its price, attribute and
  image helpers;
* the two persistence backends (src/core/coreDatabase/SQLDatabase.py and
  MongoDatabase.py) as pure state transformers over a list of rows;
* the FSM engine (src/core/baseFSM.py), the pagination machine
  (src/scraper/paginationScraper.py) as a step function, and the store
  operations of the completion and dead-link machines
  (src/scraper/completionScraper.py, src/scraper/deadLinkScraper.py);
* the dead-page heuristic `is_link_dead` (src/scraper/kijijiScraper.py).

Modelling conventions: machine floats are modelled as exact rationals
(the price pipeline divides an integer minor-unit amount by 100, which is
exact); dates are strings in the "%Y-%m-%d %H:%M:%S" format the code
produces, whose lexicographic order coincides with chronological order;
I/O (logging, file dumps, the network) is elided; exceptions are
`Except Unit` errors.
-/

/-- JSON-like values, the payload domain of the scraper and the
persistence layer. Numbers are exact rationals. -/
inductive J where
  | null
  | b (x : Bool)
  | n (q : ℚ)
  | s (x : String)
  | arr (xs : List J)
  | obj (kvs : List (String × J))

/-- Dictionary lookup. Later duplicate keys overwrite earlier ones, as in
a Python dict built by `json.loads`. -/
def jLookup (kvs : List (String × J)) (k : String) : Option J :=
  (kvs.reverse.find? (fun p => p.1 == k)).map Prod.snd

/-- Python truthiness of a JSON value (`if attributes:` etc.). -/
def jTruthy : J → Bool
  | .null => false
  | .b x => x
  | .n q => !(q == 0)
  | .s t => !(t == "")
  | .arr xs => !xs.isEmpty
  | .obj kvs => !kvs.isEmpty

/-- Scalar equality between JSON values, as used by the SQL layer when a
column is compared with a bound parameter. Composite operands never equal
a stored scalar (binding a dict or list is an error handled as
"no match"); SQL `NULL = NULL` is not a match either. -/
def scalarEq : J → J → Bool
  | .b x, .b y => x == y
  | .n x, .n y => x == y
  | .s x, .s y => x == y
  | _, _ => false

/-- Is the value exactly the given string (Python `value == "image"`:
non-strings compare unequal, no error)? -/
def jIsStr (v : J) (t : String) : Bool :=
  match v with
  | .s u => u == t
  | _ => false

/-- `d.get(k)` — `AttributeError` when `d` is not a dict, `None` when the
key is missing. -/
def pyGet (d : J) (k : String) : Except Unit (Option J) :=
  match d with
  | .obj kvs => .ok (jLookup kvs k)
  | _ => .error ()

/-- `d.get(k, default)`. -/
def pyGetD (d : J) (k : String) (dflt : J) : Except Unit J :=
  match d with
  | .obj kvs => .ok ((jLookup kvs k).getD dflt)
  | _ => .error ()

/-- `d[k]` — `KeyError` when the key is missing, `TypeError` when `d` is
not a dict (string indices must be integers, etc.). -/
def pyIndex (d : J) (k : String) : Except Unit J :=
  match d with
  | .obj kvs =>
    match jLookup kvs k with
    | some v => .ok v
    | none => .error ()
  | _ => .error ()

/-- `for x in v`: lists yield their items, dicts their keys, strings
their one-character substrings; `None`, booleans and numbers are not
iterable (`TypeError`). -/
def pyIterList (v : J) : Except Unit (List J) :=
  match v with
  | .arr xs => .ok xs
  | .obj kvs => .ok (kvs.map (fun p => J.s p.1))
  | .s t => .ok (t.toList.map (fun c => J.s (String.mk [c])))
  | _ => .error ()

/-- Insert one binding into a Python dict under construction: an existing
key keeps its position and takes the new value, a new key is appended. -/
def dictInsert (m : List (String × J)) (k : String) (v : J) : List (String × J) :=
  if m.any (fun p => p.1 == k) then m.map (fun p => if p.1 == k then (k, v) else p)
  else m ++ [(k, v)]

/-- Build a Python dict from a sequence of bindings (dict-comprehension
semantics: first-occurrence order, last value wins). -/
def dictOfPairs (ps : List (String × J)) : List (String × J) :=
  ps.foldl (fun m p => dictInsert m p.1 p.2) []

/-- Whitespace predicate used by Python `str.strip()`. -/
def wsB (c : Char) : Bool := c.isWhitespace

/-- Python `str.strip()`: remove leading and trailing whitespace. -/
def pyStrip (l : List Char) : List Char :=
  ((l.dropWhile wsB).reverse.dropWhile wsB).reverse

/-- Python `str.lower()`, restricted to the ASCII mapping of
`Char.toLower`; every character of the dead-page phrases and of the URL
marker compared below is fixed or ASCII under both. -/
def pyLower (l : List Char) : List Char := l.map Char.toLower

/-- Substring containment (`needle in hay`). -/
def strContains (hay needle : String) : Bool :=
  decide (needle.toList <:+: hay.toList)

/-- Code-point lexicographic order on character lists — Python string
comparison, and the BSON string order on the ASCII date strings the
crawlers store. -/
def chListLt : List Char → List Char → Bool
  | [], [] => false
  | [], _ :: _ => true
  | _ :: _, [] => false
  | a :: as, b :: bs =>
    decide (a.toNat < b.toNat) || (a.toNat == b.toNat && chListLt as bs)

/-- String strict order used for the `$lt` date comparison. -/
def strLtB (a b : String) : Bool := chListLt a.toList b.toList

/-- Digit run to a natural number. -/
def digitsToNat (cs : List Char) : Nat :=
  cs.foldl (fun a c => a * 10 + (c.toNat - 48)) 0

/-- Unsigned part of Python `float(str)` parsing: digits with an optional
fractional part. Exponent, `inf` and `nan` forms are elided (the price
payloads never produce them). -/
def parseUnsignedFloat (cs : List Char) : Option ℚ :=
  let intPart := cs.takeWhile Char.isDigit
  let rest := cs.dropWhile Char.isDigit
  match rest with
  | [] => if intPart.isEmpty then none else some (digitsToNat intPart)
  | '.' :: frac =>
    if frac.all Char.isDigit && !(intPart.isEmpty && frac.isEmpty) then
      some ((digitsToNat intPart : ℚ) + (digitsToNat frac : ℚ) / 10 ^ frac.length)
    else none
  | _ => none

/-- Python `float(s)` on a string: surrounding whitespace is ignored, an
optional sign precedes the digits; failure is a `ValueError`. -/
def pyFloatOfString (s : String) : Option ℚ :=
  match pyStrip s.toList with
  | '-' :: rest => (parseUnsignedFloat rest).map Neg.neg
  | '+' :: rest => parseUnsignedFloat rest
  | rest => parseUnsignedFloat rest

/-- Two-decimal rounding, `float("{:.2f}".format(x))`. Exact on values
with at most two decimals — every minor-unit amount divided by 100 —
so the tie-breaking convention is never exercised there. -/
def round2 (x : ℚ) : ℚ := ((round (x * 100) : ℤ) : ℚ) / 100

/-- The listing record, fields and assignment order of
`KijijiAd.__init__` (src/ICD/KijijiAdICD.py). `price` is the nullable
monetary value; `removal_date` and `last_checked_date` are nullable date
strings; `attributes` is the flat mapping the formatter produces. -/
structure KijijiAd where
  title : J
  price : Option ℚ
  location : J
  description : J
  posted_date : String
  attributes : List (String × J)
  images : J
  url : String
  process_state : String
  state : String
  address : Option J
  seller_name : J
  removal_date : Option String
  last_checked_date : Option String

/-- `KijijiDataFormatter._calculate_price`: `data.get("price", {})`, then
`price_info.get("amount", 0)`; a `None` amount returns `None`; otherwise
`float(amount)` (a `TypeError`/`ValueError` there returns `None`), then
divide by 100 and round to two decimals. A non-dict `data` or
`price_info` raises (`AttributeError` is not in the except clause). -/
def KijijiDataFormatter._calculate_price (data : J) : Except Unit (Option ℚ) := do
  let price_info ← pyGetD data "price" (J.obj [])
  let amountJ ← pyGetD price_info "amount" (J.n 0)
  match amountJ with
  | .null => return none
  | .n q => return some (round2 (q / 100))
  | .b x => return some (round2 ((if x then (1 : ℚ) else 0) / 100))
  | .s t =>
    match pyFloatOfString t with
    | some q => return some (round2 (q / 100))
    | none => return none
  | .arr _ => return none
  | .obj _ => return none

/-- A dict key. The payload attribute names and machine keys are strings;
unhashable key values raise. -/
def jAsKey : J → Except Unit String
  | .s t => .ok t
  | _ => .error ()

/-- `attr["values"] if len(attr["values"]) > 1 else attr["values"][0]`:
collapse a one-element list to its element; an empty list is an
`IndexError`; `len` of a string keeps the string either way (a
one-character string is its own first element) unless empty; `len` is a
`TypeError` on `None`, booleans and numbers; a dict of more than one key
is kept, otherwise `d[0]` is a `KeyError`. -/
def collapseValues : J → Except Unit J
  | .arr [] => .error ()
  | .arr [v] => .ok v
  | .arr vs => .ok (.arr vs)
  | .s t => if t == "" then .error () else .ok (.s t)
  | .obj kvs => if kvs.length > 1 then .ok (.obj kvs) else .error ()
  | _ => .error ()

/-- `KijijiDataFormatter._extract_attributes`: when `attributes` is
truthy, a dict comprehension over `{name, values[]}` pairs with
single-element value lists collapsed; otherwise a comprehension over the
`{machineKey, machineValue}` pairs of `adAttributes`. -/
def KijijiDataFormatter._extract_attributes (data : J) : Except Unit (List (String × J)) := do
  let attributes ← pyGetD data "attributes" (J.arr [])
  if jTruthy attributes then do
    let items ← pyIterList attributes
    let pairs ← items.mapM (fun attr => do
      let nm ← pyIndex attr "name"
      let vals ← pyIndex attr "values"
      let v ← collapseValues vals
      let key ← jAsKey nm
      pure (key, v))
    pure (dictOfPairs pairs)
  else do
    let adAttrs ← pyGetD data "adAttributes" (J.arr [])
    let items ← pyIterList adAttrs
    let pairs ← items.mapM (fun attr => do
      let k ← pyIndex attr "machineKey"
      let v ← pyIndex attr "machineValue"
      let key ← jAsKey k
      pure (key, v))
    pure (dictOfPairs pairs)

/-- `KijijiDataFormatter._extract_images`: `data.get("imageUrls", [])`,
returned as is when truthy, else the `href` of every `media` item whose
`type` is `"image"`. -/
def KijijiDataFormatter._extract_images (data : J) : Except Unit J := do
  let images ← pyGetD data "imageUrls" (J.arr [])
  if jTruthy images then pure images
  else do
    let media ← pyGetD data "media" (J.arr [])
    let items ← pyIterList media
    let hrefs ← items.foldlM (fun acc item => do
      let ty ← pyIndex item "type"
      if jIsStr ty "image" then do
        let h ← pyIndex item "href"
        pure (acc ++ [h])
      else pure acc) ([] : List J)
    pure (J.arr hrefs)

/-- Validate and convert an exact `"%Y-%m-%dT%H:%M:%SZ"` timestamp to the
`"%Y-%m-%d %H:%M:%S"` rendering of `str(datetime)`. Range checks model
`strptime` field validation; per-month day counts are abstracted to 31. -/
def isoZConvert (cs : List Char) : Option (List Char) :=
  match cs with
  | [y1, y2, y3, y4, '-', m1, m2, '-', d1, d2, 'T',
     h1, h2, ':', n1, n2, ':', s1, s2, 'Z'] =>
    if ([y1, y2, y3, y4, m1, m2, d1, d2, h1, h2, n1, n2, s1, s2].all Char.isDigit) then
      let mo := digitsToNat [m1, m2]
      let da := digitsToNat [d1, d2]
      let hh := digitsToNat [h1, h2]
      let mi := digitsToNat [n1, n2]
      let ss := digitsToNat [s1, s2]
      if decide (1 ≤ mo) && decide (mo ≤ 12) && decide (1 ≤ da) && decide (da ≤ 31)
          && decide (hh ≤ 23) && decide (mi ≤ 59) && decide (ss ≤ 59) then
        some [y1, y2, y3, y4, '-', m1, m2, '-', d1, d2, ' ',
              h1, h2, ':', n1, n2, ':', s1, s2]
      else none
    else none
  | _ => none

/-- `BaseFormatter.parse_date` as used on `sortingDate` with format
`"%Y-%m-%dT%H:%M:%SZ"`: an integer is a millisecond epoch (rendering of
the resulting datetime abstracted to a token); an empty or unparsable
string, and every other input type, defaults to "now". -/
def KijijiDataFormatter.parse_date (j : J) (now : String) : String :=
  match j with
  | .n q => if q.den == 1 then "fromtimestamp " ++ toString q.num else now
  | .b x => "fromtimestamp " ++ toString (if x then (1 : ℤ) else 0)
  | .s t =>
    if t == "" then now
    else
      match isoZConvert t.toList with
      | some out => String.mk out
      | none => now
  | _ => now

/-- Resolve a two-segment JSON path; a non-dict intermediate yields no
match (jsonpath semantics), never an error. -/
def jPath2 (raw : J) (k1 k2 : String) : Option J :=
  match raw with
  | .obj kvs =>
    match jLookup kvs k1 with
    | some (.obj kvs2) => jLookup kvs2 k2
    | _ => none
  | _ => none

/-- Drop a match whose value is JSON null (`None` matches are skipped and
a trailing `None` result is indistinguishable from no result). -/
def nonNullMatch : Option J → Option J
  | some .null => none
  | some v => some v
  | none => none

/-- `BaseFormatter.get_json_value(raw, ["location.address",
"adLocation.mapAddress"])`: first non-null hit in path priority order. -/
def get_json_value_addr (raw : J) : Option J :=
  match nonNullMatch (jPath2 raw "location" "address") with
  | some v => some v
  | none => nonNullMatch (jPath2 raw "adLocation" "mapAddress")

/-- The body of `KijijiDataFormatter.format_data`, field for field in
source order; any raised helper error aborts the record. `now` is the
ambient clock used when a date defaults. -/
def format_data_core (raw : J) (now : String) : Except Unit KijijiAd := do
  let titleJ ← pyGet raw "title"
  let title := titleJ.getD J.null
  let description ← pyGetD raw "description" (J.s "")
  let images ← KijijiDataFormatter._extract_images raw
  let price ← KijijiDataFormatter._calculate_price raw
  let seoJ ← pyGetD raw "seoUrl" (J.s "")
  let seo ← jAsKey seoJ
  let url := (if strContains seo "www.kijiji.ca" then "" else "https://www.kijiji.ca") ++ seo
  let adLoc ← pyGetD raw "adLocation" (J.obj [])
  let lonO ← pyGet adLoc "longitude"
  let latO ← pyGet adLoc "latitude"
  let address := get_json_value_addr raw
  let sd ← pyGetD raw "sortingDate" (J.s "")
  let posted_date := KijijiDataFormatter.parse_date sd now
  let attributes ← KijijiDataFormatter._extract_attributes raw
  let sellerJ ← pyGetD raw "sellerName" (J.s "")
  .ok { title := title
        price := price
        location := J.obj [("longitude", lonO.getD J.null), ("latitude", latO.getD J.null)]
        description := description
        posted_date := posted_date
        attributes := attributes
        images := images
        url := url
        process_state := "NEW"
        state := "ACTIVE"
        address := address
        seller_name := sellerJ
        removal_date := none
        last_checked_date := none }

/-- `KijijiDataFormatter.format_data`: the catch-all handler turns any
raised error into a null result for the record. -/
def KijijiDataFormatter.format_data (raw : J) (now : String) : Option KijijiAd :=
  match format_data_core raw now with
  | .ok r => some r
  | .error _ => none

/-- `KijijiScraper.format_ad_data`: delegates to the formatter, then
dereferences `formatted_ad_data.url` for logging — on a null formatted
record that raises `AttributeError`, which the wrapper logs and
re-raises. The backend-dependent `to_dict` serialization flag is elided
at this level. -/
def KijijiScraper.format_ad_data (ad_data : J) (now : String) : Except Unit KijijiAd :=
  match KijijiDataFormatter.format_data ad_data now with
  | some r => .ok r
  | none => .error ()

/-- A persisted row: a field-to-value map, as both backends store it. -/
def Row : Type := List (String × J)

/-- Value of a field of a row (`None`/absent distinction preserved). -/
def rowLookup (row : Row) (k : String) : Option J := jLookup row k

/-- SQL unique-key comparison: two stored values collide only when both
are equal non-null scalars — SQL `NULL`s never violate a unique
constraint. -/
def sqlKeyEq : Option J → Option J → Bool
  | some a, some b => scalarEq a b
  | _, _ => false

/-- `SQLAlchemyDatabase.create`: insert the row; an `IntegrityError` from
the unique `url` constraint (the only unique field of
`KijijiAd.get_schema()`) is rolled back and returned as `false`. -/
def SQLAlchemyDatabase.create (st : List Row) (data : Row) : Bool × List Row :=
  if st.any (fun r => sqlKeyEq (rowLookup r "url") (rowLookup data "url")) then (false, st)
  else (true, st ++ [data])

/-- Mongo unique-index comparison: a missing field is indexed as null,
and two nulls do collide (`DuplicateKeyError`). -/
def mongoKeyEq (a b : Option J) : Bool :=
  match a.getD J.null, b.getD J.null with
  | .null, .null => true
  | x, y => scalarEq x y

/-- `MongoDBDatabase.create`: `insert_one`; a `DuplicateKeyError` from
the unique `url` index returns `false` and leaves the collection
untouched. -/
def MongoDBDatabase.create (st : List Row) (data : Row) : Bool × List Row :=
  if st.any (fun r => mongoKeyEq (rowLookup r "url") (rowLookup data "url")) then (false, st)
  else (true, st ++ [data])

/-- One conjunct of the SQL `WHERE` clause built by
`SQLAlchemyDatabase.read`: always `column == value`. A composite query
value (such as the `{"$lt": …}` operator document the dead-link machine
passes) is bound as an equality operand and matches no stored scalar. -/
def sqlMatchesRow (query : List (String × J)) (row : Row) : Bool :=
  query.all (fun kv =>
    match rowLookup row kv.1 with
    | some v => scalarEq v kv.2
    | none => false)

/-- `SQLAlchemyDatabase.read`: equality filter on every query pair;
`limit=0` leaves the result unbounded. -/
def SQLAlchemyDatabase.read (st : List Row) (query : List (String × J)) (limit : Nat) : List Row :=
  let ms := st.filter (sqlMatchesRow query)
  if 0 < limit then ms.take limit else ms

/-- One MongoDB query conjunct: the operator document `{"$lt": v}` is a
range comparison under BSON type bracketing (strings compare with
strings, numbers with numbers); a null query value matches null or
missing; any other value is a scalar equality. Composite (array/object)
equality operands, which no crawler query uses, are not matched. -/
def mongoMatchVal (stored : Option J) (qv : J) : Bool :=
  match qv with
  | .obj [("$lt", b)] =>
    match stored, b with
    | some (.s a), .s bs => strLtB a bs
    | some (.n a), .n bn => decide (a < bn)
    | _, _ => false
  | .null =>
    match stored with
    | none => true
    | some .null => true
    | _ => false
  | _ =>
    match stored with
    | some v => scalarEq v qv
    | none => false

/-- Conjunction of the Mongo query document. -/
def mongoMatchesRow (query : List (String × J)) (row : Row) : Bool :=
  query.all (fun kv => mongoMatchVal (rowLookup row kv.1) kv.2)

/-- `MongoDBDatabase.read`: `find(query).limit(limit)`; pymongo treats
`limit(0)` as no limit. -/
def MongoDBDatabase.read (st : List Row) (query : List (String × J)) (limit : Nat) : List Row :=
  let ms := st.filter (mongoMatchesRow query)
  if 0 < limit then ms.take limit else ms

/-- The staleness query document built by `KijijiLinkCheckFSM.FETCH_AD`:
equality on `process_state` and a `$lt` operator document on
`last_checked_date`. -/
def staleQuery (ps cutoff : String) : List (String × J) :=
  [("process_state", J.s ps), ("last_checked_date", J.obj [("$lt", J.s cutoff)])]

/-- Modelled from the spec sentence for `read`: "returns exactly the
records whose equality field matches and whose date field is strictly
less than the given cutoff". -/
def staleSpecMatches (ps cutoff : String) (row : Row) : Bool :=
  (match rowLookup row "process_state" with
   | some (.s v) => v == ps
   | _ => false) &&
  (match rowLookup row "last_checked_date" with
   | some (.s d) => strLtB d cutoff
   | _ => false)

/-- The record collection seen at the record level by the three crawl
machines; `create` fails exactly on a duplicate `url`. -/
def adCreate (st : List KijijiAd) (r : KijijiAd) : Bool × List KijijiAd :=
  if st.any (fun x => x.url == r.url) then (false, st)
  else (true, st ++ [r])

/-- `update({'url': u}, ad)` with a full field dict: every matching
record takes the payload's fields wholesale. -/
def updateWhere (st : List KijijiAd) (u : String) (newRec : KijijiAd) : List KijijiAd :=
  st.map (fun r => if r.url == u then newRec else r)

/-- `KijijiCompletionFSM.UPDATE_AD`: the formatted detail record, keyed
back to the fetched record's url, marked `COMPLETED`/`ACTIVE` with a
fresh `last_checked_date`. -/
def KijijiCompletionFSM.UPDATE_AD_op (st : List KijijiAd) (adUrl : String)
    (formatted : KijijiAd) (now : String) : List KijijiAd :=
  updateWhere st adUrl
    { formatted with url := adUrl, process_state := "COMPLETED", state := "ACTIVE",
                     last_checked_date := some now }

/-- `KijijiCompletionFSM.DEAD_AD`: a copy of the fetched record marked
`COMPLETED`/`DEAD`, with `last_checked_date` and `removal_date` both set
to now. -/
def KijijiCompletionFSM.DEAD_AD_op (st : List KijijiAd) (ad : KijijiAd)
    (now : String) : List KijijiAd :=
  updateWhere st ad.url
    { ad with process_state := "COMPLETED", state := "DEAD",
              last_checked_date := some now, removal_date := some now }

/-- `KijijiLinkCheckFSM.CHECK_LINK`, dead branch: same field set as
`DEAD_AD`. -/
def KijijiLinkCheckFSM.CHECK_LINK_dead_op (st : List KijijiAd) (ad : KijijiAd)
    (now : String) : List KijijiAd :=
  updateWhere st ad.url
    { ad with process_state := "COMPLETED", state := "DEAD",
              last_checked_date := some now, removal_date := some now }

/-- `KijijiLinkCheckFSM.CHECK_LINK`, alive branch: only
`last_checked_date` is refreshed on the copied record. -/
def KijijiLinkCheckFSM.CHECK_LINK_alive_op (st : List KijijiAd) (ad : KijijiAd)
    (now : String) : List KijijiAd :=
  updateWhere st ad.url { ad with last_checked_date := some now }

/-- The record-level invariant of the spec: `removal_date` is set iff
`state == DEAD`. -/
def InvAd (r : KijijiAd) : Prop := r.removal_date ≠ none ↔ r.state = "DEAD"

/-- The invariant over a whole stored collection. -/
def InvStore (st : List KijijiAd) : Prop := ∀ r ∈ st, InvAd r

instance (r : KijijiAd) : Decidable (InvAd r) := by
  unfold InvAd; infer_instance

instance (st : List KijijiAd) : Decidable (InvStore st) := by
  unfold InvStore; infer_instance

/-- Outcome of looking up and invoking the handler of the current state
tag in `BaseFSM.fsm`: the method may be undefined (`getattr` returns
`None`), may raise, or returns the next tag. -/
inductive HandlerOutcome (σ : Type) where
  | undefined
  | raises
  | next (s : σ)

/-- The FSM engine of `src/core/baseFSM.py`, over an arbitrary state-tag
type: a terminal tag and the per-tag dispatch outcome. -/
structure BaseFSM (σ : Type) where
  END : σ
  handler : σ → HandlerOutcome σ

/-- `BaseFSM.fsm`: one transition. A missing current state, an undefined
handler, or an exception inside the handler all force the terminal tag;
only a normal handler return is adopted as the next state. -/
def BaseFSM.fsm {σ : Type} (m : BaseFSM σ) (current : Option σ) : σ :=
  match current with
  | none => m.END
  | some st =>
    match m.handler st with
    | .undefined => m.END
    | .raises => m.END
    | .next s' => s'

/-- State tags of `KijijiPaginationFSM`. -/
inductive PagState where
  | GET_PAGE
  | EXTRACT_LISTINGS
  | FORMAT_DATA
  | ADD_DATA
  | INC_PAGE
  | END
deriving DecidableEq

/-- `KijijiScraper.get_ads_listings`: walk to
`props.pageProps.__APOLLO_STATE__` with empty-dict defaults and keep the
values of the keys containing `"ListingV2"`; a non-dict node raises. -/
def KijijiScraper.get_ads_listings (json_data : J) : Except Unit (List J) := do
  let props ← pyGetD json_data "props" (J.obj [])
  let pageProps ← pyGetD props "pageProps" (J.obj [])
  let apollo ← pyGetD pageProps "__APOLLO_STATE__" (J.obj [])
  match apollo with
  | .obj kvs => .ok ((kvs.filter (fun p => strContains p.1 "ListingV2")).map Prod.snd)
  | _ => .error ()

/-- Environment of one pagination run: fetching and parsing page `n`
either raises (network failure), finds no `__NEXT_DATA__` script tag
(`ok none`), or yields the parsed page payload; `now` is the ambient
clock the formatter defaults dates to. -/
structure PagEnv where
  page : Nat → Except Unit (Option J)
  now : String

/-- The machine state of `KijijiPaginationFSM`: current tag, page
counter, the zero-insert counter and its configured tolerance, the
record store, and the per-cycle scratch fields. -/
structure PagMachine where
  current : PagState
  start_page : Nat
  zero_added : Nat
  max_zero_added : Nat
  database : List KijijiAd
  response : Option (Option J)
  extracted_listings : Option (List J)
  formatted_data : Option (List KijijiAd)

/-- The `ADD_DATA` loop body: attempt `create` for each formatted record
in order, counting the successful inserts. -/
def insertAll (st : List KijijiAd) (fs : List KijijiAd) : Nat × List KijijiAd :=
  fs.foldl (fun acc r =>
    let c := adCreate acc.2 r
    (acc.1 + (if c.1 then 1 else 0), c.2)) (0, st)

/-- The decision tail of `KijijiPaginationFSM.ADD_DATA`: a page with zero
successful inserts increments `zero_added`, and the machine ends as soon
as the incremented counter strictly exceeds `max_zero_added`; otherwise
the cycle proceeds to `INC_PAGE`. Returns the next tag, the new counter
and the new store. -/
def KijijiPaginationFSM.ADD_DATA_step (st : List KijijiAd) (fs : List KijijiAd)
    (zero_added max_zero_added : Nat) : PagState × Nat × List KijijiAd :=
  let r := insertAll st fs
  if r.1 = 0 then
    if zero_added + 1 > max_zero_added then (PagState.END, zero_added + 1, r.2)
    else (PagState.INC_PAGE, zero_added + 1, r.2)
  else (PagState.INC_PAGE, zero_added, r.2)

/-- One transition of `KijijiPaginationFSM`, handler by handler; every
caught exception inside a handler transitions to `END`, matching the
try/except bodies of the source. Unset scratch on entry to a state that
needs it is the `None`-dereference error path, also `END`. -/
def pagStep (env : PagEnv) (m : PagMachine) : PagMachine :=
  match m.current with
  | .GET_PAGE =>
    match env.page m.start_page with
    | .error _ => { m with current := .END }
    | .ok r => { m with current := .EXTRACT_LISTINGS, response := some r }
  | .EXTRACT_LISTINGS =>
    match m.response with
    | some (some j) =>
      match KijijiScraper.get_ads_listings j with
      | .ok ls => { m with current := .FORMAT_DATA, extracted_listings := some ls }
      | .error _ => { m with current := .END }
    | _ => { m with current := .END }
  | .FORMAT_DATA =>
    match m.extracted_listings with
    | none => { m with current := .END }
    | some ls =>
      match ls.mapM (fun raw => KijijiScraper.format_ad_data raw env.now) with
      | .ok fs => { m with current := .ADD_DATA, formatted_data := some fs }
      | .error _ => { m with current := .END }
  | .ADD_DATA =>
    match m.formatted_data with
    | none => { m with current := .END }
    | some fs =>
      let r := KijijiPaginationFSM.ADD_DATA_step m.database fs m.zero_added m.max_zero_added
      { m with current := r.1, zero_added := r.2.1, database := r.2.2 }
  | .INC_PAGE => { m with current := .GET_PAGE, start_page := m.start_page + 1 }
  | .END => m

/-- Iterated pagination transitions (a run of `k` engine steps). -/
def pagRun (env : PagEnv) : Nat → PagMachine → PagMachine
  | 0, m => m
  | k + 1, m => pagRun env k (pagStep env m)

/-- The dead-page phrase list of `KijijiScraper.is_link_dead`, verbatim
(the first phrase carries the source's mojibake bytes). -/
def dead_flags : List (List Char) :=
  ["page non trouv√©e".toList,
   "page not found".toList,
   "annonce non disponible".toList,
   "this page no longer exists".toList,
   "listing was so awesome that it\x27s already gone".toList]

/-- `KijijiScraper.is_link_dead` on the page's visible text: lowercase,
strip, then substring-match any dead-page phrase. -/
def is_link_dead (visibleText : String) : Bool :=
  let page_text := pyStrip (pyLower visibleText.toList)
  dead_flags.any (fun flag => decide (flag <:+: page_text))

/-- Does the row store the given url? Observer used to state which record
a url resolves to. -/
def rowHasUrl (row : Row) (u : String) : Bool :=
  match rowLookup row "url" with
  | some (.s v) => v == u
  | _ => false

/-- Common shape of both backends' `create`, parameterized by the
backend's unique-key collision test. Each backend's `create` is this
shape definitionally. -/
def createLike (keyEq : Option J → Option J → Bool) (st : List Row) (data : Row) :
    Bool × List Row :=
  if st.any (fun r => keyEq (rowLookup r "url") (rowLookup data "url")) then (false, st)
  else (true, st ++ [data])

/-- A minimal raw listing payload that formats successfully: every other
field takes its default. -/
def demoListing : J := J.obj [("seoUrl", J.s "/demo-1")]

/-- An inert record used only as a `getD` fallback and as a concrete
invariant-satisfying record. -/
def fallbackAd : KijijiAd :=
  { title := J.null, price := none, location := J.null, description := J.null,
    posted_date := "", attributes := [], images := J.null, url := "",
    process_state := "", state := "", address := none, seller_name := J.null,
    removal_date := none, last_checked_date := none }

/-- The formatted record of `demoListing`. -/
def demoAd : KijijiAd := (KijijiDataFormatter.format_data demoListing "t0").getD fallbackAd

/-- A `__NEXT_DATA__` payload whose Apollo state carries exactly one
`ListingV2` entry, `demoListing`. -/
def demoPage : J :=
  J.obj [("props", J.obj [("pageProps", J.obj [("__APOLLO_STATE__",
    J.obj [("ListingV2:1", demoListing)])])])]

/-- An environment in which every page fetch succeeds and yields
`demoPage` — every page repeats the same already-seen listing. -/
def demoEnv : PagEnv := { page := fun _ => .ok (some demoPage), now := "t0" }

/-- A pagination machine configured with zero-results tolerance 2, its
store seeded with `demoAd`, about to fetch page 1. -/
def m0 : PagMachine :=
  { current := .GET_PAGE, start_page := 1, zero_added := 0, max_zero_added := 2,
    database := [demoAd], response := none, extracted_listings := none,
    formatted_data := none }

/-- A pagination machine about to format a page whose first raw listing
is malformed (a JSON null) and whose second is well-formed. -/
def mBadFormat : PagMachine :=
  { current := .FORMAT_DATA, start_page := 1, zero_added := 0, max_zero_added := 2,
    database := [], response := some (some demoPage),
    extracted_listings := some [J.null, demoListing], formatted_data := none }

/-- A pagination machine at `ADD_DATA` with tolerance 0 whose page
yields only a duplicate. -/
def mZeroTol : PagMachine :=
  { current := .ADD_DATA, start_page := 1, zero_added := 0, max_zero_added := 0,
    database := [demoAd], response := none, extracted_listings := none,
    formatted_data := some [demoAd] }

/-- A raw payload with one single-valued attribute. -/
def demoAttrData : J :=
  J.obj [("attributes", J.arr [J.obj [("name", J.s "a"), ("values", J.arr [J.s "x"])]])]

/-- A stored completed row whose `last_checked_date` is older than the
cutoff used below. -/
def staleRow : Row :=
  [("url", J.s "u1"), ("process_state", J.s "COMPLETED"),
   ("last_checked_date", J.s "2024-01-01 00:00:00")]

/-- Concrete rows sharing one url. -/
def rowA : Row := [("url", J.s "u"), ("title", J.s "a")]

/-- A second row with the same url and different content. -/
def rowB : Row := [("url", J.s "u"), ("title", J.s "b")]

/-- A concrete engine instance over `Bool` tags whose dispatch always
fails to find a handler. -/
def engineNoHandler : BaseFSM Bool := { END := true, handler := fun _ => .undefined }

/-- A concrete engine instance whose handler raises on every tag. -/
def engineRaises : BaseFSM Bool := { END := true, handler := fun _ => .raises }

/-! Helper lemmas. -/

/-- A phrase starting with a non-whitespace character survives leading
whitespace removal of its host. -/
theorem infix_dropWhile_of_head {c : Char} {cs l : List Char} (hc : wsB c = false)
    (h : (c :: cs) <:+: l) : (c :: cs) <:+: l.dropWhile wsB := by
  induction l with
  | nil => exact absurd (List.infix_nil.mp h) (by simp)
  | cons a t ih =>
    by_cases ha : wsB a = true
    · rw [List.dropWhile_cons, if_pos ha]
      rcases List.infix_cons_iff.mp h with hpre | hinf
      · rcases List.cons_prefix_cons.mp hpre with ⟨rfl, _⟩
        rw [ha] at hc
        exact absurd hc (by simp)
      · exact ih hinf
    · rw [List.dropWhile_cons, if_neg ha]
      exact h

/-- A phrase whose first and last characters are non-whitespace survives
a full strip of its host. -/
theorem infix_pyStrip_of_ends {p l : List Char} (h : p <:+: l)
    (h1 : ∃ c cs, p = c :: cs ∧ wsB c = false)
    (h2 : ∃ d ds, p.reverse = d :: ds ∧ wsB d = false) :
    p <:+: pyStrip l := by
  obtain ⟨c, cs, hp, hc⟩ := h1
  obtain ⟨d, ds, hq, hd⟩ := h2
  have s1 : p <:+: l.dropWhile wsB := by
    rw [hp] at h ⊢
    exact infix_dropWhile_of_head hc h
  have s2 : p.reverse <:+: (l.dropWhile wsB).reverse := List.reverse_infix.mpr s1
  have s3 : p.reverse <:+: (l.dropWhile wsB).reverse.dropWhile wsB := by
    rw [hq] at s2 ⊢
    exact infix_dropWhile_of_head hd s2
  have s4 := List.reverse_infix.mpr s3
  rw [List.reverse_reverse] at s4
  exact s4

/-- The stripped text is an infix of the original text. -/
theorem pyStrip_sub (l : List Char) : pyStrip l <:+: l := by
  have h1 : l.dropWhile wsB <:+ l := List.dropWhile_suffix _
  have h2 : (l.dropWhile wsB).reverse.dropWhile wsB <:+ (l.dropWhile wsB).reverse :=
    List.dropWhile_suffix _
  have h3 : ((l.dropWhile wsB).reverse.dropWhile wsB).reverse <+: l.dropWhile wsB :=
    List.reverse_suffix.mp (by rw [List.reverse_reverse]; exact h2)
  exact List.IsInfix.trans (List.IsPrefix.isInfix h3) (List.IsSuffix.isInfix h1)

/-- C4: for every machine and current tag, an undefined handler or a
handler that raises makes the engine's single transition return the
terminal tag rather than propagate or retry. -/
theorem fsm_engine_fault_forces_terminal :
    ∀ (σ : Type) (m : BaseFSM σ) (st : σ),
      (m.handler st = HandlerOutcome.undefined ∨ m.handler st = HandlerOutcome.raises) →
      m.fsm (some st) = m.END := by
  intro σ m st h
  rcases h with h | h <;> simp [BaseFSM.fsm, h]

/-- C4 witness: both fault kinds at a concrete machine. -/
theorem fsm_engine_fault_forces_terminal_witness :
    engineNoHandler.fsm (some false) = engineNoHandler.END ∧
    engineRaises.fsm (some false) = engineRaises.END :=
  ⟨fsm_engine_fault_forces_terminal Bool engineNoHandler false (Or.inl rfl),
   fsm_engine_fault_forces_terminal Bool engineRaises false (Or.inr rfl)⟩

/-- C8: any-case occurrence of "page not found" in the visible text
classifies the page dead, and a text containing none of the phrases
(case-insensitively) classifies not dead. -/
theorem dead_page_detection :
    (∀ page : String,
       (∃ w : List Char, w <:+: page.toList ∧ pyLower w = "page not found".toList) →
       is_link_dead page = true)
    ∧ (∀ page : String,
       (∀ f ∈ dead_flags, ¬ (f <:+: pyLower page.toList)) →
       is_link_dead page = false) := by
  constructor
  · intro page h
    obtain ⟨w, hw, hlow⟩ := h
    have h1 : pyLower w <:+: pyLower page.toList := List.IsInfix.map Char.toLower hw
    rw [hlow] at h1
    have h2 : "page not found".toList <:+: pyStrip (pyLower page.toList) :=
      infix_pyStrip_of_ends h1 ⟨'p', _, rfl, by decide⟩ ⟨'d', _, rfl, by decide⟩
    simp only [is_link_dead, List.any_eq_true]
    exact ⟨"page not found".toList, by simp [dead_flags], decide_eq_true h2⟩
  · intro page hflags
    simp only [is_link_dead, List.any_eq_false]
    intro f hf
    simp only [decide_eq_true_eq]
    exact fun hinf => hflags f hf (hinf.trans (pyStrip_sub (pyLower page.toList)))

/-- C8 witness: a mixed-case "Page Not Found" page is dead; a page of
listing content only is not. -/
theorem dead_page_detection_witness :
    is_link_dead "Oops: Page Not Found!" = true ∧
    is_link_dead "Nice 4 1/2 apartment close to downtown" = false :=
  ⟨dead_page_detection.1 "Oops: Page Not Found!"
     ⟨"Page Not Found".toList, by decide, by decide⟩,
   dead_page_detection.2 "Nice 4 1/2 apartment close to downtown" (by decide)⟩

/-- A single pagination transition never decreases the zero-insert
counter, and increments it exactly on an `ADD_DATA` step whose page
yields zero successful inserts. -/
theorem pagStep_zero_added_cases (env : PagEnv) (m : PagMachine) :
    (pagStep env m).zero_added = m.zero_added ∨
      ((pagStep env m).zero_added = m.zero_added + 1 ∧ m.current = PagState.ADD_DATA ∧
       ∃ fs, m.formatted_data = some fs ∧ (insertAll m.database fs).1 = 0) := by
  obtain ⟨cur, sp, z, mz, db, resp, ex, fd⟩ := m
  cases cur
  case GET_PAGE =>
    cases hp : env.page sp <;> simp [pagStep, hp]
  case EXTRACT_LISTINGS =>
    cases resp with
    | none => simp [pagStep]
    | some r =>
      cases r with
      | none => simp [pagStep]
      | some j =>
        cases hg : KijijiScraper.get_ads_listings j <;> simp [pagStep, hg]
  case FORMAT_DATA =>
    cases ex with
    | none => simp [pagStep]
    | some ls =>
      cases hm : List.mapM.loop (fun raw => KijijiScraper.format_ad_data raw env.now) ls [] <;>
        simp [pagStep, hm]
  case ADD_DATA =>
    cases fd with
    | none => simp [pagStep]
    | some fs =>
      by_cases h0 : (insertAll db fs).1 = 0
      · right
        refine ⟨?_, rfl, fs, rfl, h0⟩
        by_cases h1 : z + 1 > mz <;>
          simp [pagStep, KijijiPaginationFSM.ADD_DATA_step, h0, h1]
      · left
        simp [pagStep, KijijiPaginationFSM.ADD_DATA_step, h0]
  case INC_PAGE => simp [pagStep]
  case END => simp [pagStep]

/-- C2: `ADD_DATA` returns `END` exactly when the updated zero-insert
counter strictly exceeds the configured tolerance (for any counter value
reachable in a run, i.e. not already above the tolerance); and in the
concrete tolerance-2 run where every page repeats an already-stored
listing, the machine leaves `ADD_DATA` with `INC_PAGE` on the first two
zero-insert pages (counter 1, then 2) and ends exactly on the third
(counter 3, steps 4, 9 and 14 of the run). -/
theorem pagination_zero_tolerance_termination :
    (∀ (st fs : List KijijiAd) (z tol : Nat), z ≤ tol →
       ((KijijiPaginationFSM.ADD_DATA_step st fs z tol).1 = PagState.END ↔
         tol < (if (insertAll st fs).1 = 0 then z + 1 else z)))
    ∧ ((pagRun demoEnv 4 m0).current = PagState.INC_PAGE
       ∧ (pagRun demoEnv 4 m0).zero_added = 1
       ∧ (pagRun demoEnv 9 m0).current = PagState.INC_PAGE
       ∧ (pagRun demoEnv 9 m0).zero_added = 2
       ∧ (pagRun demoEnv 13 m0).current = PagState.ADD_DATA
       ∧ (pagRun demoEnv 14 m0).current = PagState.END
       ∧ (pagRun demoEnv 14 m0).zero_added = 3) := by
  constructor
  · intro st fs z tol hz
    by_cases h0 : (insertAll st fs).1 = 0 <;> by_cases h1 : z + 1 > tol <;>
      simp [KijijiPaginationFSM.ADD_DATA_step, h0, h1] <;> omega
  · exact ⟨by decide, by decide, by decide, by decide, by decide, by decide, by decide⟩

/-- C2 witness: the termination rule applied at a concrete duplicate
page with tolerance 2 and counter 2. -/
theorem pagination_zero_tolerance_termination_witness :
    (KijijiPaginationFSM.ADD_DATA_step [demoAd] [demoAd] 2 2).1 = PagState.END ↔
      2 < (if (insertAll [demoAd] [demoAd]).1 = 0 then 2 + 1 else 2) :=
  pagination_zero_tolerance_termination.1 [demoAd] [demoAd] 2 2 (by decide)

/-- C10: over any run the zero-insert counter is monotonically
non-decreasing; no transition resets it — a step either preserves it or
increments it, and an increment happens only on a zero-insert
`ADD_DATA` page; and any `ADD_DATA` step on a zero-insert page with the
counter already at (or beyond) the tolerance ends the machine — so
tolerance+1 zero-insert pages accumulated anywhere in the run, however
interleaved with successful pages, stop it. -/
theorem zero_counter_monotone_accumulation :
    (∀ (env : PagEnv) (m : PagMachine) (k : Nat),
       m.zero_added ≤ (pagRun env k m).zero_added)
    ∧ (∀ (env : PagEnv) (m : PagMachine),
       (pagStep env m).zero_added = m.zero_added ∨
         ((pagStep env m).zero_added = m.zero_added + 1 ∧ m.current = PagState.ADD_DATA ∧
          ∃ fs, m.formatted_data = some fs ∧ (insertAll m.database fs).1 = 0))
    ∧ (∀ (env : PagEnv) (m : PagMachine) (fs : List KijijiAd),
       m.current = PagState.ADD_DATA → m.formatted_data = some fs →
       (insertAll m.database fs).1 = 0 → m.max_zero_added ≤ m.zero_added →
       (pagStep env m).current = PagState.END) := by
  refine ⟨?_, pagStep_zero_added_cases, ?_⟩
  · intro env m k
    induction k generalizing m with
    | zero => exact le_refl _
    | succ k ih =>
      have hstep : m.zero_added ≤ (pagStep env m).zero_added := by
        rcases pagStep_zero_added_cases env m with h | ⟨h, _⟩ <;> omega
      exact le_trans hstep (ih (pagStep env m))
  · intro env m fs hc hf h0 hmx
    have h1 : m.zero_added + 1 > m.max_zero_added := by omega
    simp [pagStep, hc, hf, KijijiPaginationFSM.ADD_DATA_step, h0, h1]

/-- C10 witness: a zero-insert page at tolerance 0 ends the machine. -/
theorem zero_counter_monotone_accumulation_witness :
    (pagStep demoEnv mZeroTol).current = PagState.END :=
  zero_counter_monotone_accumulation.2.2 demoEnv mZeroTol [demoAd] rfl rfl rfl (by decide)

/-- Core of the duplicate-url property, proved once for any backend
collision test that treats two equal string urls as a collision. -/
theorem createLike_spec (keyEq : Option J → Option J → Bool)
    (hkey : ∀ v w : String, keyEq (some (J.s v)) (some (J.s w)) = (v == w))
    (st : List Row) (r r2 : Row) (u : String)
    (h1 : rowLookup r "url" = some (J.s u))
    (h2 : rowLookup r2 "url" = some (J.s u)) :
    createLike keyEq ((createLike keyEq st r).2) r2 = (false, (createLike keyEq st r).2)
    ∧ ((createLike keyEq st r).1 = true →
        List.find? (fun row => rowHasUrl row u) ((createLike keyEq st r).2) = some r) := by
  by_cases hany : st.any (fun rw => keyEq (rowLookup rw "url") (rowLookup r "url")) = true
  · have hcr : createLike keyEq st r = (false, st) := by simp [createLike, hany]
    rw [hcr]
    constructor
    · have hcol : st.any (fun rw => keyEq (rowLookup rw "url") (rowLookup r2 "url")) = true := by
        rw [h2]
        rw [h1] at hany
        exact hany
      simp [createLike, hcol]
    · intro hfalse
      simp at hfalse
  · simp only [Bool.not_eq_true] at hany
    have hcr : createLike keyEq st r = (true, st ++ [r]) := by simp [createLike, hany]
    rw [hcr]
    constructor
    · have hr : keyEq (rowLookup r "url") (rowLookup r2 "url") = true := by
        rw [h1, h2, hkey]
        simp
      have hcol : (st ++ [r]).any
          (fun rw => keyEq (rowLookup rw "url") (rowLookup r2 "url")) = true := by
        rw [List.any_append]
        simp [hr]
      simp [createLike, hcol]
    · intro _
      have hnone : List.find? (fun row => rowHasUrl row u) st = none := by
        rw [List.find?_eq_none]
        intro x hx hxu
        have hall := List.any_eq_false.mp hany x hx
        cases hlx : rowLookup x "url" with
        | none => simp [rowHasUrl, hlx] at hxu
        | some v =>
          cases v with
          | s vs =>
            simp only [rowHasUrl, hlx] at hxu
            have hveq : vs = u := eq_of_beq hxu
            apply hall
            rw [hlx, h1, hveq, hkey]
            simp
          | null => simp [rowHasUrl, hlx] at hxu
          | b x => simp [rowHasUrl, hlx] at hxu
          | n q => simp [rowHasUrl, hlx] at hxu
          | arr xs => simp [rowHasUrl, hlx] at hxu
          | obj kvs => simp [rowHasUrl, hlx] at hxu
      rw [List.find?_append, hnone]
      have hru : rowHasUrl r u = true := by simp [rowHasUrl, h1]
      simp [List.find?_cons, hru]

/-- C1: after any record with url `u` has been stored, a second `create`
with any record of the same url returns `false` and leaves the store —
in particular the record stored under `u` by a successful first call —
unchanged, for the relational and the document backend alike. -/
theorem create_duplicate_url_returns_false :
    ∀ (st : List Row) (r r2 : Row) (u : String),
      rowLookup r "url" = some (J.s u) →
      rowLookup r2 "url" = some (J.s u) →
      (SQLAlchemyDatabase.create ((SQLAlchemyDatabase.create st r).2) r2
          = (false, (SQLAlchemyDatabase.create st r).2)
        ∧ ((SQLAlchemyDatabase.create st r).1 = true →
            List.find? (fun row => rowHasUrl row u) ((SQLAlchemyDatabase.create st r).2)
              = some r))
      ∧ (MongoDBDatabase.create ((MongoDBDatabase.create st r).2) r2
          = (false, (MongoDBDatabase.create st r).2)
        ∧ ((MongoDBDatabase.create st r).1 = true →
            List.find? (fun row => rowHasUrl row u) ((MongoDBDatabase.create st r).2)
              = some r)) := by
  intro st r r2 u h1 h2
  exact ⟨createLike_spec sqlKeyEq (fun v w => rfl) st r r2 u h1 h2,
         createLike_spec mongoKeyEq (fun v w => rfl) st r r2 u h1 h2⟩

/-- C1 witness: two concrete rows with the same url against the empty
store, on both backends. -/
theorem create_duplicate_url_returns_false_witness :
    (SQLAlchemyDatabase.create ((SQLAlchemyDatabase.create [] rowA).2) rowB
        = (false, (SQLAlchemyDatabase.create [] rowA).2)
      ∧ ((SQLAlchemyDatabase.create [] rowA).1 = true →
          List.find? (fun row => rowHasUrl row "u") ((SQLAlchemyDatabase.create [] rowA).2)
            = some rowA))
    ∧ (MongoDBDatabase.create ((MongoDBDatabase.create [] rowA).2) rowB
        = (false, (MongoDBDatabase.create [] rowA).2)
      ∧ ((MongoDBDatabase.create [] rowA).1 = true →
          List.find? (fun row => rowHasUrl row "u") ((MongoDBDatabase.create [] rowA).2)
            = some rowA)) :=
  create_duplicate_url_returns_false [] rowA rowB "u" rfl rfl

/-- Bind over the exception monad succeeds iff both stages do. -/
theorem except_bind_ok {α β : Type} {x : Except Unit α} {f : α → Except Unit β} {b : β} :
    (x >>= f) = .ok b ↔ ∃ a, x = .ok a ∧ f a = .ok b := by
  cases x <;> simp [Bind.bind, Except.bind]

/-- Every record the formatter produces is born `NEW`/`ACTIVE` with no
removal date. -/
theorem format_data_lifecycle {raw : J} {now : String} {r : KijijiAd}
    (h : KijijiDataFormatter.format_data raw now = some r) :
    r.process_state = "NEW" ∧ r.state = "ACTIVE" ∧ r.removal_date = none := by
  unfold KijijiDataFormatter.format_data at h
  cases hc : format_data_core raw now with
  | error e => rw [hc] at h; cases h
  | ok r0 =>
    rw [hc] at h
    cases h
    unfold format_data_core at hc
    simp only [except_bind_ok] at hc
    obtain ⟨a1, _, a2, _, a3, _, a4, _, a5, _, a6, _, a7, _, a8, _, a9, _, a10, _,
      a11, _, a12, _, hfin⟩ := hc
    cases hfin
    exact ⟨rfl, rfl, rfl⟩

/-- Membership after an `updateWhere`: a record is the new payload or an
untouched original. -/
theorem updateWhere_mem {st : List KijijiAd} {u : String} {nr x : KijijiAd}
    (hx : x ∈ updateWhere st u nr) : x = nr ∨ x ∈ st := by
  unfold updateWhere at hx
  rw [List.mem_map] at hx
  obtain ⟨y, hy, hxy⟩ := hx
  by_cases hcase : (y.url == u) = true
  · rw [if_pos hcase] at hxy
    exact Or.inl hxy.symm
  · rw [if_neg hcase] at hxy
    exact Or.inr (hxy ▸ hy)

/-- C7: every persistence operation of the three crawl machines
preserves the invariant that `removal_date` is set iff `state == DEAD` —
the pagination insert of a freshly formatted record, the completion
machine's `UPDATE_AD` (payload from a formatted record) and `DEAD_AD`,
and both branches of the dead-link machine's `CHECK_LINK`. -/
theorem removal_date_iff_dead_invariant :
    (∀ (st : List KijijiAd) (raw : J) (now : String) (r : KijijiAd),
       KijijiDataFormatter.format_data raw now = some r → InvStore st →
       InvStore (adCreate st r).2)
    ∧ (∀ (st : List KijijiAd) (u : String) (raw : J) (now0 now : String) (f : KijijiAd),
       KijijiDataFormatter.format_data raw now0 = some f → InvStore st →
       InvStore (KijijiCompletionFSM.UPDATE_AD_op st u f now))
    ∧ (∀ (st : List KijijiAd) (ad : KijijiAd) (now : String),
       InvStore st → InvStore (KijijiCompletionFSM.DEAD_AD_op st ad now))
    ∧ (∀ (st : List KijijiAd) (ad : KijijiAd) (now : String),
       InvStore st → InvStore (KijijiLinkCheckFSM.CHECK_LINK_dead_op st ad now))
    ∧ (∀ (st : List KijijiAd) (ad : KijijiAd) (now : String),
       InvStore st → InvAd ad →
       InvStore (KijijiLinkCheckFSM.CHECK_LINK_alive_op st ad now)) := by
  refine ⟨?_, ?_, ?_, ?_, ?_⟩
  · intro st raw now r hf hst
    obtain ⟨-, hstate, hrem⟩ := format_data_lifecycle hf
    intro x hx
    unfold adCreate at hx
    by_cases hany : (st.any (fun y => y.url == r.url)) = true
    · rw [if_pos hany] at hx
      exact hst x hx
    · rw [if_neg hany] at hx
      rcases List.mem_append.mp hx with hm | hm
      · exact hst x hm
      · rw [List.mem_singleton.mp hm]
        unfold InvAd
        rw [hstate, hrem]
        simp
  · intro st u raw now0 now f hf hst x hx
    obtain ⟨-, -, hrem⟩ := format_data_lifecycle hf
    rcases updateWhere_mem hx with hnew | hold
    · subst hnew
      unfold InvAd
      simp [hrem]
    · exact hst x hold
  · intro st ad now hst x hx
    rcases updateWhere_mem hx with hnew | hold
    · subst hnew
      unfold InvAd
      simp
    · exact hst x hold
  · intro st ad now hst x hx
    rcases updateWhere_mem hx with hnew | hold
    · subst hnew
      unfold InvAd
      simp
    · exact hst x hold
  · intro st ad now hst had x hx
    rcases updateWhere_mem hx with hnew | hold
    · subst hnew
      unfold InvAd at had ⊢
      simpa using had
    · exact hst x hold

/-- C7 witness: each operation applied at a concrete invariant-holding
store and record. -/
theorem removal_date_iff_dead_invariant_witness :
    InvStore (adCreate [] demoAd).2
    ∧ InvStore (KijijiCompletionFSM.UPDATE_AD_op [demoAd] "u" demoAd "t1")
    ∧ InvStore (KijijiCompletionFSM.DEAD_AD_op [demoAd] fallbackAd "t1")
    ∧ InvStore (KijijiLinkCheckFSM.CHECK_LINK_dead_op [demoAd] fallbackAd "t1")
    ∧ InvStore (KijijiLinkCheckFSM.CHECK_LINK_alive_op [demoAd] fallbackAd "t1") :=
  ⟨removal_date_iff_dead_invariant.1 [] demoListing "t0" demoAd rfl (by decide),
   removal_date_iff_dead_invariant.2.1 [demoAd] "u" demoListing "t0" "t1" demoAd rfl
     (by decide),
   removal_date_iff_dead_invariant.2.2.1 [demoAd] fallbackAd "t1" (by decide),
   removal_date_iff_dead_invariant.2.2.2.1 [demoAd] fallbackAd "t1" (by decide),
   removal_date_iff_dead_invariant.2.2.2.2 [demoAd] fallbackAd "t1" (by decide)
     (by decide)⟩

/-- Two-decimal rounding is exact at 123.45. -/
theorem round2_at_12345 : round2 ((12345 : ℚ) / 100) = (12345 : ℚ) / 100 := by
  unfold round2
  have h1 : (12345 : ℚ) / 100 * 100 = ((12345 : ℤ) : ℚ) := by norm_num
  rw [h1, round_intCast]
  norm_num

/-- C3 counterexample: a payload whose price object carries no `amount`
key computes the price 0.0, not null — `price_info.get("amount", 0)`
defaults the missing amount to 0. -/
theorem calculate_price_absent_amount_counterexample :
    KijijiDataFormatter._calculate_price (J.obj [("price", J.obj [])]) = .ok (some 0)
    ∧ (Except.ok (some 0) : Except Unit (Option ℚ)) ≠ .ok none := by
  constructor
  · have h : KijijiDataFormatter._calculate_price (J.obj [("price", J.obj [])])
        = .ok (some (round2 (0 / 100))) := rfl
    rw [h]
    norm_num [round2]
  · simp

/-- Bind after a success reduces to the continuation. -/
theorem except_ok_bind {α β : Type} (a : α) (f : α → Except Unit β) :
    (Except.ok a >>= f : Except Unit β) = f a := rfl

/-- C3 amended: an `amount` present with value null computes a null
price (never 0); an `amount` key absent from the price object — or a
missing price object altogether — defaults the amount to 0 and computes
the price 0.0; and amount 12345 computes exactly 123.45. -/
theorem calculate_price_null_vs_absent :
    (∀ (dkvs pkvs : List (String × J)),
       jLookup dkvs "price" = some (J.obj pkvs) →
       jLookup pkvs "amount" = some J.null →
       KijijiDataFormatter._calculate_price (J.obj dkvs) = .ok none)
    ∧ (∀ (dkvs pkvs : List (String × J)),
       jLookup dkvs "price" = some (J.obj pkvs) →
       jLookup pkvs "amount" = none →
       KijijiDataFormatter._calculate_price (J.obj dkvs) = .ok (some 0))
    ∧ (∀ (dkvs : List (String × J)),
       jLookup dkvs "price" = none →
       KijijiDataFormatter._calculate_price (J.obj dkvs) = .ok (some 0))
    ∧ (∀ (dkvs pkvs : List (String × J)),
       jLookup dkvs "price" = some (J.obj pkvs) →
       jLookup pkvs "amount" = some (J.n 12345) →
       KijijiDataFormatter._calculate_price (J.obj dkvs)
         = .ok (some ((12345 : ℚ) / 100))) := by
  refine ⟨?_, ?_, ?_, ?_⟩
  · intro dkvs pkvs h1 h2
    unfold KijijiDataFormatter._calculate_price
    rw [show pyGetD (J.obj dkvs) "price" (J.obj []) = .ok (J.obj pkvs) from by
      simp [pyGetD, h1]]
    simp only [except_ok_bind]
    rw [show pyGetD (J.obj pkvs) "amount" (J.n 0) = .ok J.null from by
      simp [pyGetD, h2]]
    rfl
  · intro dkvs pkvs h1 h2
    unfold KijijiDataFormatter._calculate_price
    rw [show pyGetD (J.obj dkvs) "price" (J.obj []) = .ok (J.obj pkvs) from by
      simp [pyGetD, h1]]
    simp only [except_ok_bind]
    rw [show pyGetD (J.obj pkvs) "amount" (J.n 0) = .ok (J.n 0) from by
      simp [pyGetD, h2]]
    simp only [except_ok_bind]
    norm_num [round2]
    rfl
  · intro dkvs h1
    unfold KijijiDataFormatter._calculate_price
    rw [show pyGetD (J.obj dkvs) "price" (J.obj []) = .ok (J.obj []) from by
      simp [pyGetD, h1]]
    simp only [except_ok_bind]
    rw [show pyGetD (J.obj ([] : List (String × J))) "amount" (J.n 0) = .ok (J.n 0) from rfl]
    simp only [except_ok_bind]
    norm_num [round2]
    rfl
  · intro dkvs pkvs h1 h2
    unfold KijijiDataFormatter._calculate_price
    rw [show pyGetD (J.obj dkvs) "price" (J.obj []) = .ok (J.obj pkvs) from by
      simp [pyGetD, h1]]
    simp only [except_ok_bind]
    rw [show pyGetD (J.obj pkvs) "amount" (J.n 0) = .ok (J.n 12345) from by
      simp [pyGetD, h2]]
    simp only [except_ok_bind]
    rw [round2_at_12345]
    rfl

/-- C3 witness: the three amended cases at concrete payloads. -/
theorem calculate_price_null_vs_absent_witness :
    KijijiDataFormatter._calculate_price (J.obj [("price", J.obj [("amount", J.null)])])
      = .ok none
    ∧ KijijiDataFormatter._calculate_price (J.obj []) = .ok (some 0)
    ∧ KijijiDataFormatter._calculate_price
        (J.obj [("price", J.obj [("amount", J.n 12345)])])
      = .ok (some ((12345 : ℚ) / 100)) :=
  ⟨calculate_price_null_vs_absent.1 [("price", J.obj [("amount", J.null)])]
     [("amount", J.null)] rfl rfl,
   calculate_price_null_vs_absent.2.2.1 [] rfl,
   calculate_price_null_vs_absent.2.2.2 [("price", J.obj [("amount", J.n 12345)])]
     [("amount", J.n 12345)] rfl rfl⟩

/-- C9 counterexample: normalizing a `{name, values[]}` payload yields
the flat mapping `{"a": "x"}`, but running the normalization again on
that flat mapping yields the empty mapping, not the same mapping. -/
theorem attribute_normalization_not_idempotent :
    KijijiDataFormatter._extract_attributes demoAttrData = .ok [("a", J.s "x")]
    ∧ KijijiDataFormatter._extract_attributes (J.obj [("a", J.s "x")]) = .ok []
    ∧ ([("a", J.s "x")] : List (String × J)) ≠ [] :=
  ⟨rfl, rfl, by simp⟩

/-- C9 amended: re-running attribute normalization on an
already-normalized flat mapping does not fail, but returns the empty
mapping whenever the mapping carries no `attributes` or `adAttributes`
key of its own — both lookups default to the empty list, so a non-empty
normalized mapping is never reproduced. -/
theorem renormalize_already_flat_yields_empty :
    ∀ (kvs : List (String × J)),
      jLookup kvs "attributes" = none →
      jLookup kvs "adAttributes" = none →
      KijijiDataFormatter._extract_attributes (J.obj kvs) = .ok [] := by
  intro kvs h1 h2
  unfold KijijiDataFormatter._extract_attributes
  rw [show pyGetD (J.obj kvs) "attributes" (J.arr []) = .ok (J.arr []) from by
    simp [pyGetD, h1]]
  simp only [except_ok_bind]
  rw [show pyGetD (J.obj kvs) "adAttributes" (J.arr []) = .ok (J.arr []) from by
    simp [pyGetD, h2]]
  rfl

/-- C9 witness: the amended statement at the concrete flat mapping. -/
theorem renormalize_already_flat_yields_empty_witness :
    KijijiDataFormatter._extract_attributes (J.obj [("b", J.s "y")]) = .ok [] :=
  renormalize_already_flat_yields_empty [("b", J.s "y")] rfl rfl

/-- The Mongo staleness query agrees pointwise with the spec's
equality-and-less-than filter. -/
theorem mongo_stale_pointwise (ps cutoff : String) (row : Row) :
    mongoMatchesRow (staleQuery ps cutoff) row = staleSpecMatches ps cutoff row := by
  unfold mongoMatchesRow staleQuery staleSpecMatches
  simp only [List.all_cons, List.all_nil, Bool.and_true]
  have h1 : mongoMatchVal (rowLookup row "process_state") (J.s ps)
      = (match rowLookup row "process_state" with
         | some (.s v) => v == ps
         | _ => false) := by
    cases rowLookup row "process_state" with
    | none => rfl
    | some v => cases v <;> rfl
  have h2 : mongoMatchVal (rowLookup row "last_checked_date") (J.obj [("$lt", J.s cutoff)])
      = (match rowLookup row "last_checked_date" with
         | some (.s d) => strLtB d cutoff
         | _ => false) := by
    cases rowLookup row "last_checked_date" with
    | none => rfl
    | some v => cases v <;> rfl
  rw [h1, h2]

/-- C5 counterexample: a stored row that satisfies the spec's
equality-and-less-than staleness filter is returned by the document
backend but not by the relational backend — its `read` treats the
`{"$lt": …}` operator document as an equality operand. -/
theorem sql_read_lt_query_counterexample :
    staleSpecMatches "COMPLETED" "2024-06-01 00:00:00" staleRow = true
    ∧ SQLAlchemyDatabase.read [staleRow] (staleQuery "COMPLETED" "2024-06-01 00:00:00") 0
        = []
    ∧ MongoDBDatabase.read [staleRow] (staleQuery "COMPLETED" "2024-06-01 00:00:00") 0
        = [staleRow] :=
  ⟨rfl, rfl, rfl⟩

/-- C5 amended: the document backend's `read` with the staleness query
and `limit=0` returns exactly the records matching equality on
`process_state` and strict string-order less-than on
`last_checked_date`; the relational backend's `read` supports only
equality conjuncts, so the same query returns no rows there at any
limit; and `limit=0` is unbounded on both backends. -/
theorem read_stale_query_backends :
    (∀ (st : List Row) (ps cutoff : String),
       MongoDBDatabase.read st (staleQuery ps cutoff) 0
         = st.filter (staleSpecMatches ps cutoff))
    ∧ (∀ (st : List Row) (ps cutoff : String) (lim : Nat),
       SQLAlchemyDatabase.read st (staleQuery ps cutoff) lim = [])
    ∧ (∀ (st : List Row) (q : List (String × J)),
       SQLAlchemyDatabase.read st q 0 = st.filter (sqlMatchesRow q)
       ∧ MongoDBDatabase.read st q 0 = st.filter (mongoMatchesRow q)) := by
  refine ⟨?_, ?_, ?_⟩
  · intro st ps cutoff
    have h : MongoDBDatabase.read st (staleQuery ps cutoff) 0
        = st.filter (mongoMatchesRow (staleQuery ps cutoff)) := rfl
    rw [h]
    exact List.filter_congr (fun row _ => mongo_stale_pointwise ps cutoff row)
  · intro st ps cutoff lim
    have hnil : st.filter (sqlMatchesRow (staleQuery ps cutoff)) = [] := by
      rw [List.filter_eq_nil_iff]
      intro row _
      unfold sqlMatchesRow staleQuery
      simp only [List.all_cons, List.all_nil, Bool.and_true]
      have h2 : (match rowLookup row "last_checked_date" with
          | some v => scalarEq v (J.obj [("$lt", J.s cutoff)])
          | none => false) = false := by
        cases rowLookup row "last_checked_date" with
        | none => rfl
        | some v => cases v <;> rfl
      simp [h2]
    simp only [SQLAlchemyDatabase.read, hnil]
    split <;> simp
  · intro st q
    exact ⟨rfl, rfl⟩

/-- A single malformed element makes the whole page's `mapM` raise. -/
theorem mapM_error_of_mem {ls : List J} {f : J → Except Unit KijijiAd}
    (h : ∃ r ∈ ls, f r = .error ()) : ls.mapM f = .error () := by
  induction ls with
  | nil =>
    obtain ⟨r, hr, -⟩ := h
    cases hr
  | cons a t ih =>
    obtain ⟨r, hr, herr⟩ := h
    rw [List.mapM_cons]
    rcases List.mem_cons.mp hr with rfl | hmem
    · rw [herr]
      rfl
    · cases hfa : f a with
      | error e => rfl
      | ok b =>
        simp only [except_ok_bind]
        rw [ih ⟨r, hmem, herr⟩]
        rfl

/-- C6 counterexample: the formatter itself yields null on a malformed
payload, but a pagination page containing that payload and a second,
well-formed one transitions to `END` at `FORMAT_DATA` — the crawl is
aborted, the well-formed remainder of the page is not processed. -/
theorem format_null_aborts_page_counterexample :
    KijijiDataFormatter.format_data J.null "t0" = none
    ∧ (pagStep demoEnv mBadFormat).current = PagState.END :=
  ⟨rfl, by decide⟩

/-- C6 amended: any error inside formatting is caught there and
surfaces as a null record; but the calling wrapper `format_ad_data`
re-raises on a null record, and a pagination `FORMAT_DATA` step over a
page with any null-formatting listing transitions to `END` — the page
(and the run) is aborted rather than the single record skipped. -/
theorem format_failure_policy :
    (∀ (raw : J) (now : String),
       format_data_core raw now = .error () →
       KijijiDataFormatter.format_data raw now = none)
    ∧ (∀ (raw : J) (now : String),
       KijijiDataFormatter.format_data raw now = none →
       KijijiScraper.format_ad_data raw now = .error ())
    ∧ (∀ (env : PagEnv) (m : PagMachine) (ls : List J),
       m.current = PagState.FORMAT_DATA → m.extracted_listings = some ls →
       (∃ raw ∈ ls, KijijiDataFormatter.format_data raw env.now = none) →
       (pagStep env m).current = PagState.END) := by
  refine ⟨?_, ?_, ?_⟩
  · intro raw now h
    unfold KijijiDataFormatter.format_data
    rw [h]
  · intro raw now h
    unfold KijijiScraper.format_ad_data
    rw [h]
  · intro env m ls hc hl hex
    have herr : ls.mapM (fun raw => KijijiScraper.format_ad_data raw env.now)
        = .error () := by
      apply mapM_error_of_mem
      obtain ⟨raw, hmem, hnone⟩ := hex
      refine ⟨raw, hmem, ?_⟩
      unfold KijijiScraper.format_ad_data
      rw [hnone]
    have herr2 : List.mapM.loop (fun raw => KijijiScraper.format_ad_data raw env.now) ls []
        = .error () := herr
    simp [pagStep, hc, hl, herr2]

/-- C6 witness: the wrapper raises on the malformed payload, and the
machine with that payload on its page ends. -/
theorem format_failure_policy_witness :
    KijijiScraper.format_ad_data J.null "t0" = .error ()
    ∧ (pagStep demoEnv mBadFormat).current = PagState.END :=
  ⟨format_failure_policy.2.1 J.null "t0" rfl,
   format_failure_policy.2.2 demoEnv mBadFormat [J.null, demoListing] rfl rfl
     ⟨J.null, by simp, rfl⟩⟩
